import Mathlib

/-
Verification of the streaming-event consumer of the sam_system repository
(frontend LeadsPage component, src/frontend/app/composables/use-canvas-animation.ts,
lines 116-267 of the combined file).

The consumer subscribes to a Server-Sent-Events stream for a task and reacts to
three named event categories (status_update, final_response, error) plus the
transport-level onerror callback.  Its observable state is

  * messages   : the ordered transcript of AgentMessage records,
  * isComplete : the completion flag,
  * error      : the caller-visible error slot,
  * streamOpen : whether eventSource.close() has been called.

The embedding below translates the four event handlers into a pure step
function on that state.  Client-generated metadata of a transcript entry
(crypto.randomUUID identifier and Date timestamp) is nondeterministic
environment input that no handler ever reads back; it is not modelled.
-/

namespace LeadsPage

/-- The file descriptor carried by a content-list entry
(`part.file` with `filename` and `mime_type`). -/
structure FileDescriptor where
  filename : Option String
  mime_type : Option String
deriving DecidableEq, Repr

/-- One entry of the nested content list `data.result?.status?.message?.content`:
an optional `text` field and an optional `file` descriptor. -/
structure ContentPart where
  text : Option String
  file : Option FileDescriptor
deriving DecidableEq, Repr

/-- The value found at `data.result?.status?.message?.content` in a parsed payload:
the optional chain may break (`missing`, i.e. null/undefined), the value may be
present but not an array (`nonArray`: `Array.isArray` is false and `.filter` on it
throws a TypeError), or it is an array of content parts. -/
inductive ContentField where
  | missing
  | nonArray
  | list (parts : List ContentPart)
deriving DecidableEq, Repr

/-- A successfully parsed event payload, restricted to the fields the handlers
read: the nested content list and the top-level `error` field. -/
structure EventData where
  content : ContentField
  error : Option String
deriving DecidableEq, Repr

/-- The raw `event.data` of a named event: absent/empty (falsy, so
`!event?.data` holds and `JSON.parse` would throw), present but not valid JSON
(`JSON.parse` throws), or parsed. -/
inductive Payload where
  | absent
  | malformed
  | parsed (d : EventData)
deriving DecidableEq, Repr

/-- The three named event categories the consumer listens for. -/
inductive EventKind where
  | status_update
  | final_response
  | error
deriving DecidableEq, Repr

/-- An occurrence delivered by the transport: a named event with its payload, or
the transport-level onerror callback. -/
inductive Event where
  | named (k : EventKind) (p : Payload)
  | transportError
deriving DecidableEq, Repr

/-- The kind tag of a transcript entry (AgentMessage.type). -/
inductive MessageType where
  | status
  | final
  | error
deriving DecidableEq, Repr

/-- A transcript entry as displayed (AgentMessage), restricted to the fields the
handlers compute deterministically: content and type.  The id (crypto.randomUUID)
and timestamp (new Date()) are environment-generated and never read back. -/
structure AgentMessage where
  content : String
  type : MessageType
deriving DecidableEq, Repr

/-- The reactive state of the LeadsPage consumer: messages, isComplete, error,
plus whether the EventSource handle is still open. -/
structure ConsumerState where
  messages : List AgentMessage
  isComplete : Bool
  error : Option String
  streamOpen : Bool
deriving DecidableEq, Repr

/-- State right after subscription: useState([]), useState(false), useState(null),
connection open. -/
def initialState : ConsumerState :=
  { messages := [], isComplete := false, error := none, streamOpen := true }

/-- JavaScript truthiness of a possibly-absent string value: null/undefined and
the empty string are falsy. -/
def strTruthy : Option String → Bool
  | none => false
  | some s => decide (s ≠ "")

/-- `Array.prototype.join` with separator between consecutive elements
(the source joins text parts with a blank line). -/
def joinParts : List String → String
  | [] => ""
  | [s] => s
  | s :: t :: rest => s ++ "\n\n" ++ joinParts (t :: rest)

/-- extractTextContent (source lines 141-155): read the nested content list; if
it is not an array return null; otherwise keep the parts whose `text` field is
truthy and join their texts with a blank-line separator. -/
def extractTextContent (d : EventData) : Option String :=
  match d.content with
  | ContentField.list parts =>
      some (joinParts ((parts.filter fun p => strTruthy p.text).map fun p => p.text.getD ""))
  | _ => none

/-- The status_update listener (source lines 167-185): parse the payload and, if
the extracted content is truthy, append one `status` entry.  Absent/malformed
payloads make JSON.parse throw inside the try, so the state is unchanged. -/
def onStatusUpdate (s : ConsumerState) (p : Payload) : ConsumerState :=
  match p with
  | Payload.parsed d =>
      if strTruthy (extractTextContent d) then
        { s with messages :=
            s.messages ++ [{ content := (extractTextContent d).getD "", type := MessageType.status }] }
      else s
  | _ => s

/-- The predicate of the `artifacts.find` call: `a.file?.mime_type === "application/json"`. -/
def isJsonFile (p : ContentPart) : Bool :=
  match p.file with
  | some f => decide (f.mime_type = some "application/json")
  | none => false

/-- The announced artifact name: `jsonArtifact.file?.filename || "leads artifact"`
(an absent or empty filename is falsy). -/
def artifactLabel (p : ContentPart) : String :=
  match p.file with
  | some f =>
      match f.filename with
      | some n => if n = "" then "leads artifact" else n
      | none => "leads artifact"
  | none => "leads artifact"

/-- The final_response listener (source lines 187-234): append a `final` text
entry when extraction is truthy; then filter the content list for file-bearing
parts and, when a JSON artifact is found, append one synthetic `final` entry
announcing it; finally set isComplete.  On a non-array content value the
expression `content?.filter(...)` throws a TypeError that the catch swallows,
so setIsComplete(true) is never reached on that path; an absent or malformed
payload throws already in JSON.parse and changes nothing. -/
def onFinalResponse (s : ConsumerState) (p : Payload) : ConsumerState :=
  match p with
  | Payload.parsed d =>
      let s1 :=
        if strTruthy (extractTextContent d) then
          { s with messages :=
              s.messages ++ [{ content := (extractTextContent d).getD "", type := MessageType.final }] }
        else s
      match d.content with
      | ContentField.nonArray => s1
      | ContentField.missing => { s1 with isComplete := true }
      | ContentField.list parts =>
          let artifacts := parts.filter fun q => q.file.isSome
          let s2 :=
            if artifacts.length > 0 then
              match artifacts.find? isJsonFile with
              | some jsonArtifact =>
                  { s1 with messages := s1.messages ++
                      [{ content := "✅ Lead generation complete! Generated " ++
                            artifactLabel jsonArtifact ++ ".",
                         type := MessageType.final }] }
              | none => s1
            else s1
          { s2 with isComplete := true }
  | _ => s

/-- The named-error listener (source lines 236-254): return early when
`event.data` is falsy; otherwise parse it, take `data.error || "An error
occurred"`, set the error state and append one `error` entry.  A malformed
payload throws in JSON.parse and changes nothing. -/
def onErrorEvent (s : ConsumerState) (p : Payload) : ConsumerState :=
  match p with
  | Payload.parsed d =>
      let errorMsg :=
        match d.error with
        | some m => if m = "" then "An error occurred" else m
        | none => "An error occurred"
      { s with error := some errorMsg,
               messages := s.messages ++
                 [{ content := "❌ Error: " ++ errorMsg, type := MessageType.error }] }
  | _ => s

/-- The value of `isComplete` seen by the `eventSource.onerror` closure.  The
closure is created inside the useEffect whose dependency array is `[taskId]`;
that effect runs once (taskId is stable for the page), while the `isComplete`
state of that render is still `false`.  Later calls of setIsComplete(true)
re-render the component but never re-run the effect, so the closure keeps
reading the stale initial binding: the captured value is the constant false. -/
def capturedIsComplete : Bool := false

/-- The onerror callback (source lines 256-262): if the captured completion flag
is not set, populate the error state with "Connection to server lost"; in every
case close the EventSource handle. -/
def onTransportError (s : ConsumerState) : ConsumerState :=
  let s1 := if capturedIsComplete then s
            else { s with error := some "Connection to server lost" }
  { s1 with streamOpen := false }

/-- One step of the consumer: dispatch an incoming occurrence to its handler. -/
def handleEvent (s : ConsumerState) (e : Event) : ConsumerState :=
  match e with
  | Event.named EventKind.status_update p => onStatusUpdate s p
  | Event.named EventKind.final_response p => onFinalResponse s p
  | Event.named EventKind.error p => onErrorEvent s p
  | Event.transportError => onTransportError s

/-- Process a whole delivery sequence in arrival order. -/
def runEvents (s : ConsumerState) (es : List Event) : ConsumerState :=
  es.foldl handleEvent s

/-- The text entry a truthy extraction contributes under the given kind tag. -/
def textEntries (d : EventData) (t : MessageType) : List AgentMessage :=
  if strTruthy (extractTextContent d) then
    [{ content := (extractTextContent d).getD "", type := t }]
  else []

/-- Text extraction as the specification words it: include exactly the entries
on which a `text` field is present.  Stated only to be compared against
`extractTextContent`, which follows the source. -/
def extractTextContentPresent (d : EventData) : Option String :=
  match d.content with
  | ContentField.list parts =>
      some (joinParts ((parts.filter fun p => p.text.isSome).map fun p => p.text.getD ""))
  | _ => none

/-- The wording of the status_update transcript claim: the nested content list
contains at least one entry with a `text` fragment (text field present). -/
def hasTextFragment (d : EventData) : Bool :=
  match d.content with
  | ContentField.list parts => parts.any fun p => p.text.isSome
  | _ => false

/-- The amended wording: the nested content list contains at least one entry
with a non-empty `text` fragment. -/
def hasNonemptyTextFragment (d : EventData) : Bool :=
  match d.content with
  | ContentField.list parts => parts.any fun p => strTruthy p.text
  | _ => false

/-- The amended wording of the extraction claim: the texts of exactly those
entries whose text field is present and non-empty. -/
def nonemptyTexts (parts : List ContentPart) : List String :=
  parts.filterMap fun p => p.text.bind fun t => if t = "" then none else some t

/-! ### Helper lemmas -/

lemma append_ne_empty (a b : String) (h : a ≠ "") : a ++ b ≠ "" := by
  intro hab
  have hl := congrArg String.length hab
  rw [String.length_append] at hl
  have h0 : ("" : String).length = 0 := rfl
  rw [h0] at hl
  have ha : a.length = 0 := by omega
  exact h (String.ext (List.length_eq_zero.mp ha))

lemma joinParts_ne_empty : ∀ l : List String, l ≠ [] → (∀ x ∈ l, x ≠ "") → joinParts l ≠ ""
  | [], hne, _ => absurd rfl hne
  | [s], _, hall => by simpa [joinParts] using hall s (by simp)
  | s :: t :: rest, _, hall => by
      simp only [joinParts]
      exact append_ne_empty _ _ (append_ne_empty s "\n\n" (hall s (by simp)))

lemma strTruthy_some_iff (s : String) : strTruthy (some s) = true ↔ s ≠ "" := by
  simp [strTruthy]

lemma strTruthy_none : strTruthy none = false := rfl

lemma strTruthy_some (s : String) : strTruthy (some s) = decide (s ≠ "") := rfl

lemma extract_truthy_of_nonempty (d : EventData) (h : hasNonemptyTextFragment d = true) :
    strTruthy (extractTextContent d) = true := by
  unfold hasNonemptyTextFragment at h
  cases hc : d.content with
  | missing => rw [hc] at h; simp at h
  | nonArray => rw [hc] at h; simp at h
  | list parts =>
      rw [hc] at h
      unfold extractTextContent
      rw [hc]
      rw [strTruthy_some_iff]
      apply joinParts_ne_empty
      · obtain ⟨p, hp, hsp⟩ := List.any_eq_true.mp h
        intro hnil
        rw [List.map_eq_nil_iff] at hnil
        exact absurd (List.mem_filter.mpr ⟨hp, hsp⟩) (by rw [hnil]; simp)
      · intro x hx
        obtain ⟨q, hq, rfl⟩ := List.mem_map.mp hx
        have hsq := (List.mem_filter.mp hq).2
        cases hqt : q.text with
        | none => rw [hqt] at hsq; simp [strTruthy] at hsq
        | some u => rw [hqt] at hsq; simpa using (strTruthy_some_iff u).mp hsq

lemma runEvents_cons (s : ConsumerState) (e : Event) (es : List Event) :
    runEvents s (e :: es) = runEvents (handleEvent s e) es := rfl

lemma onStatusUpdate_truthy (s : ConsumerState) (d : EventData)
    (h : strTruthy (extractTextContent d) = true) :
    onStatusUpdate s (Payload.parsed d) =
      { s with messages :=
          s.messages ++ [{ content := (extractTextContent d).getD "", type := MessageType.status }] } := by
  simp only [onStatusUpdate]
  rw [if_pos h]

lemma textStep_messages (s : ConsumerState) (d : EventData) (t : MessageType) :
    (if strTruthy (extractTextContent d) then
        { s with messages :=
            s.messages ++ [{ content := (extractTextContent d).getD "", type := t }] }
      else s).messages = s.messages ++ textEntries d t := by
  unfold textEntries
  split <;> simp

lemma textStep_isComplete (s : ConsumerState) (d : EventData) (t : MessageType) :
    (if strTruthy (extractTextContent d) then
        { s with messages :=
            s.messages ++ [{ content := (extractTextContent d).getD "", type := t }] }
      else s).isComplete = s.isComplete := by
  split <;> rfl

lemma isComplete_monotone (s : ConsumerState) (e : Event) (h : s.isComplete = true) :
    (handleEvent s e).isComplete = true := by
  cases e with
  | transportError =>
      simp only [handleEvent, onTransportError, capturedIsComplete]
      simpa using h
  | named k p =>
      cases k with
      | status_update =>
          cases p with
          | parsed d =>
              simp only [handleEvent, onStatusUpdate]
              split <;> simpa using h
          | absent => exact h
          | malformed => exact h
      | final_response =>
          cases p with
          | parsed d =>
              simp only [handleEvent, onFinalResponse]
              cases hc : d.content with
              | nonArray => simp only [hc]; rw [textStep_isComplete]; exact h
              | missing => simp [hc]
              | list parts => simp [hc]
          | absent => exact h
          | malformed => exact h
      | error =>
          cases p with
          | parsed d => simpa [handleEvent, onErrorEvent] using h
          | absent => exact h
          | malformed => exact h

lemma runEvents_isComplete_monotone (s : ConsumerState) (es : List Event) (h : s.isComplete = true) :
    (runEvents s es).isComplete = true := by
  induction es generalizing s with
  | nil => exact h
  | cons e rest ih => rw [runEvents_cons]; exact ih _ (isComplete_monotone s e h)

/-- When exactly one element of a list satisfies `pa`, and `pa` implies `pb`,
searching the `pb`-filtered list for `pa` finds exactly that element. -/
lemma find?_filter_of_filter_eq_singleton {α : Type} (pa pb : α → Bool)
    (himp : ∀ x, pa x = true → pb x = true) :
    ∀ (l : List α) (p : α), l.filter pa = [p] → (l.filter pb).find? pa = some p := by
  intro l
  induction l with
  | nil => intro p h; simp at h
  | cons a t ih =>
      intro p h
      by_cases hpa : pa a = true
      · rw [List.filter_cons_of_pos hpa] at h
        obtain ⟨rfl, -⟩ : a = p ∧ t.filter pa = [] := by
          simpa using h
        rw [List.filter_cons_of_pos (himp a hpa), List.find?_cons_of_pos _ hpa]
      · have hpa0 : pa a = false := by simpa using hpa
        rw [List.filter_cons_of_neg (by simp [hpa0])] at h
        by_cases hpb : pb a = true
        · rw [List.filter_cons_of_pos hpb, List.find?_cons_of_neg _ (by simp [hpa0])]
          exact ih p h
        · rw [List.filter_cons_of_neg (by simpa using hpb)]
          exact ih p h

lemma isJsonFile_implies_file_present (q : ContentPart) (hq : isJsonFile q = true) :
    q.file.isSome = true := by
  unfold isJsonFile at hq
  cases hf : q.file with
  | none => rw [hf] at hq; simp at hq
  | some f => simp [hf]

lemma onStatusUpdate_messages_extend (s : ConsumerState) (p : Payload) :
    ∃ t, (onStatusUpdate s p).messages = s.messages ++ t := by
  cases p with
  | parsed d =>
      simp only [onStatusUpdate]
      split
      · exact ⟨_, rfl⟩
      · exact ⟨[], by simp⟩
  | absent => exact ⟨[], by simp [onStatusUpdate]⟩
  | malformed => exact ⟨[], by simp [onStatusUpdate]⟩

lemma onFinalResponse_messages_extend (s : ConsumerState) (p : Payload) :
    ∃ t, (onFinalResponse s p).messages = s.messages ++ t := by
  cases p with
  | absent => exact ⟨[], by simp [onFinalResponse]⟩
  | malformed => exact ⟨[], by simp [onFinalResponse]⟩
  | parsed d =>
      simp only [onFinalResponse]
      have h1 : ∃ t1,
          (if strTruthy (extractTextContent d) then
              { s with messages :=
                  s.messages ++ [{ content := (extractTextContent d).getD "", type := MessageType.final }] }
            else s).messages = s.messages ++ t1 := by
        rw [textStep_messages]; exact ⟨_, rfl⟩
      obtain ⟨t1, ht1⟩ := h1
      cases hc : d.content with
      | nonArray => exact ⟨t1, ht1⟩
      | missing => exact ⟨t1, ht1⟩
      | list parts =>
          dsimp only
          split
          · split
            · exact ⟨t1 ++ [_], by rw [ht1, List.append_assoc]⟩
            · exact ⟨t1, ht1⟩
          · exact ⟨t1, ht1⟩

lemma onErrorEvent_messages_extend (s : ConsumerState) (p : Payload) :
    ∃ t, (onErrorEvent s p).messages = s.messages ++ t := by
  cases p with
  | parsed d => exact ⟨_, rfl⟩
  | absent => exact ⟨[], by simp [onErrorEvent]⟩
  | malformed => exact ⟨[], by simp [onErrorEvent]⟩

lemma handleEvent_messages_extend (s : ConsumerState) (e : Event) :
    ∃ t, (handleEvent s e).messages = s.messages ++ t := by
  cases e with
  | transportError =>
      simp only [handleEvent, onTransportError, capturedIsComplete]
      exact ⟨[], by simp⟩
  | named k p =>
      cases k with
      | status_update => exact onStatusUpdate_messages_extend s p
      | final_response => exact onFinalResponse_messages_extend s p
      | error => exact onErrorEvent_messages_extend s p

/-! ### Claim theorems -/

/-- Claim C1: every final_response event whose payload parses (and whose content
field has the documented shape, i.e. is absent or a list — a non-array content
value makes the handler throw before reaching setIsComplete) sets the completion
flag to true, and the flag is never reset by any sequence of further events. -/
theorem final_response_sets_completion_flag (s : ConsumerState) (d : EventData)
    (es : List Event) (h : d.content ≠ ContentField.nonArray) :
    (handleEvent s (Event.named EventKind.final_response (Payload.parsed d))).isComplete = true ∧
    (runEvents (handleEvent s (Event.named EventKind.final_response (Payload.parsed d))) es).isComplete
      = true := by
  have h1 : (handleEvent s (Event.named EventKind.final_response (Payload.parsed d))).isComplete
      = true := by
    simp only [handleEvent, onFinalResponse]
    cases hc : d.content with
    | nonArray => exact absurd hc h
    | missing => simp [hc]
    | list parts => simp [hc]
  exact ⟨h1, runEvents_isComplete_monotone _ es h1⟩

/-- Witness for C1 at a concrete text-less, artifact-less payload followed by a
further transport-error event. -/
theorem final_response_sets_completion_flag_witness :
    (handleEvent initialState
        (Event.named EventKind.final_response (Payload.parsed ⟨ContentField.missing, none⟩))).isComplete
      = true ∧
    (runEvents (handleEvent initialState
        (Event.named EventKind.final_response (Payload.parsed ⟨ContentField.missing, none⟩)))
        [Event.transportError]).isComplete = true :=
  final_response_sets_completion_flag initialState ⟨ContentField.missing, none⟩
    [Event.transportError] (by decide)

/-- Claim C2 (refuting evaluation): after a final_response has set the completion
flag, a transport error still populates the error state, because the onerror
closure reads the stale captured flag (see `capturedIsComplete`). -/
theorem post_completion_transport_error_still_sets_error :
    (handleEvent initialState
        (Event.named EventKind.final_response (Payload.parsed ⟨ContentField.missing, none⟩))).isComplete
      = true ∧
    (handleEvent (handleEvent initialState
        (Event.named EventKind.final_response (Payload.parsed ⟨ContentField.missing, none⟩)))
        Event.transportError).error = some "Connection to server lost" := by
  decide

/-- Claim C3 (counterexample): a well-formed status_update whose content list has
an entry with a text field present — but empty — appends no transcript entry,
because the source filters on JavaScript truthiness of `part.text`. -/
theorem status_update_with_empty_text_fragment_adds_no_entry :
    hasTextFragment ⟨ContentField.list [⟨some "", none⟩], none⟩ = true ∧
    handleEvent initialState
        (Event.named EventKind.status_update
          (Payload.parsed ⟨ContentField.list [⟨some "", none⟩], none⟩))
      = initialState := by
  decide

/-- Claim C3 (amended): for every sequence of parsed status_update events each of
whose content list has at least one entry with a non-empty text fragment, the
transcript grows by exactly one entry per event, in arrival order, each of kind
status. -/
theorem status_updates_append_one_status_entry_each (s : ConsumerState) (ds : List EventData)
    (h : ∀ d ∈ ds, hasNonemptyTextFragment d = true) :
    (runEvents s (ds.map fun d => Event.named EventKind.status_update (Payload.parsed d))).messages
      = s.messages ++ ds.map fun d =>
          { content := (extractTextContent d).getD "", type := MessageType.status } := by
  induction ds generalizing s with
  | nil => simp [runEvents]
  | cons d rest ih =>
      have ht := extract_truthy_of_nonempty d (h d (by simp))
      rw [List.map_cons, runEvents_cons]
      have hstep : handleEvent s (Event.named EventKind.status_update (Payload.parsed d))
          = { s with messages :=
              s.messages ++ [{ content := (extractTextContent d).getD "", type := MessageType.status }] } :=
        onStatusUpdate_truthy s d ht
      rw [hstep, ih _ fun x hx => h x (by simp [hx])]
      simp

/-- Witness for the amended C3 at one concrete status_update carrying "hi". -/
theorem status_updates_append_one_status_entry_each_witness :
    (runEvents initialState
        (([⟨ContentField.list [⟨some "hi", none⟩], none⟩] : List EventData).map
          fun d => Event.named EventKind.status_update (Payload.parsed d))).messages
      = initialState.messages ++
          ([⟨ContentField.list [⟨some "hi", none⟩], none⟩] : List EventData).map fun d =>
            { content := (extractTextContent d).getD "", type := MessageType.status } :=
  status_updates_append_one_status_entry_each initialState
    [⟨ContentField.list [⟨some "hi", none⟩], none⟩] (by decide)

/-- Claim C4 (counterexample): on a content list with a non-empty and an empty
text field, the source extraction drops the empty one, so it differs from the
claimed presence-based extraction (`extractTextContentPresent`). -/
theorem extraction_differs_from_presence_based_extraction :
    extractTextContent ⟨ContentField.list [⟨some "a", none⟩, ⟨some "", none⟩], none⟩ = some "a" ∧
    extractTextContentPresent ⟨ContentField.list [⟨some "a", none⟩, ⟨some "", none⟩], none⟩
      = some "a\n\n" ∧
    extractTextContent ⟨ContentField.list [⟨some "", none⟩, ⟨some "a", none⟩], none⟩
      ≠ extractTextContentPresent ⟨ContentField.list [⟨some "", none⟩, ⟨some "a", none⟩], none⟩ := by
  decide

/-- Claim C4 (amended): extraction keeps exactly the entries whose text field is
present and non-empty, joins them with a blank-line separator, and a truthy
extraction becomes the content of the single new transcript entry appended by
the status_update handler. -/
theorem extraction_keeps_exactly_nonempty_text_fields (parts : List ContentPart)
    (err : Option String) :
    extractTextContent ⟨ContentField.list parts, err⟩
      = some (joinParts (nonemptyTexts parts)) ∧
    (∀ s : ConsumerState,
      strTruthy (extractTextContent ⟨ContentField.list parts, err⟩) = true →
      (handleEvent s (Event.named EventKind.status_update
          (Payload.parsed ⟨ContentField.list parts, err⟩))).messages
        = s.messages ++ [{ content := joinParts (nonemptyTexts parts),
                           type := MessageType.status }]) := by
  have hlist : (parts.filter fun p => strTruthy p.text).map (fun p => p.text.getD "")
      = nonemptyTexts parts := by
    unfold nonemptyTexts
    induction parts with
    | nil => rfl
    | cons p rest ih =>
        cases hp : p.text with
        | none => simp [List.filter_cons, List.filterMap_cons, hp, strTruthy_none, ih]
        | some t =>
            by_cases ht : t = ""
            · simp [List.filter_cons, List.filterMap_cons, hp, strTruthy_some, ht, ih]
            · simp [List.filter_cons, List.filterMap_cons, hp, strTruthy_some, ht, ih]
  have hext : extractTextContent ⟨ContentField.list parts, err⟩
      = some (joinParts (nonemptyTexts parts)) := by
    simp only [extractTextContent]
    rw [hlist]
  refine ⟨hext, fun s htr => ?_⟩
  have hh : handleEvent s (Event.named EventKind.status_update
        (Payload.parsed ⟨ContentField.list parts, err⟩))
      = onStatusUpdate s (Payload.parsed ⟨ContentField.list parts, err⟩) := rfl
  rw [hh, onStatusUpdate_truthy s _ htr]
  simp [hext]

/-- Witness for the amended C4 at a concrete two-entry content list. -/
theorem extraction_keeps_exactly_nonempty_text_fields_witness :
    extractTextContent ⟨ContentField.list [⟨some "hi", none⟩, ⟨none, none⟩], none⟩
      = some (joinParts (nonemptyTexts [⟨some "hi", none⟩, ⟨none, none⟩])) ∧
    (handleEvent initialState (Event.named EventKind.status_update
        (Payload.parsed ⟨ContentField.list [⟨some "hi", none⟩, ⟨none, none⟩], none⟩))).messages
      = initialState.messages ++ [{ content := joinParts (nonemptyTexts [⟨some "hi", none⟩, ⟨none, none⟩]),
                                    type := MessageType.status }] :=
  ⟨(extraction_keeps_exactly_nonempty_text_fields [⟨some "hi", none⟩, ⟨none, none⟩] none).1,
   (extraction_keeps_exactly_nonempty_text_fields [⟨some "hi", none⟩, ⟨none, none⟩] none).2
     initialState (by decide)⟩

/-- Claim C5: an event of any named category whose payload fails to parse leaves
the whole consumer state unchanged — transcript untouched, error slot untouched,
stream still open. -/
theorem malformed_payload_is_noop (s : ConsumerState) (k : EventKind) :
    handleEvent s (Event.named k Payload.malformed) = s := by
  cases k <;> rfl

/-- Claim C6: a transport error delivered while the completion flag is false
populates the error state with the non-empty message "Connection to server lost"
and closes the stream handle. -/
theorem transport_error_before_completion_surfaces_error (s : ConsumerState)
    (h : s.isComplete = false) :
    (handleEvent s Event.transportError).error = some "Connection to server lost" ∧
    (handleEvent s Event.transportError).streamOpen = false ∧
    "Connection to server lost" ≠ "" := by
  exact ⟨rfl, rfl, by decide⟩

/-- Witness for C6 at the initial state. -/
theorem transport_error_before_completion_surfaces_error_witness :
    (handleEvent initialState Event.transportError).error = some "Connection to server lost" ∧
    (handleEvent initialState Event.transportError).streamOpen = false ∧
    "Connection to server lost" ≠ "" :=
  transport_error_before_completion_surfaces_error initialState (by decide)

/-- Claim C7: a parsed final_response whose content list has exactly one entry
with a JSON-mime file descriptor, carrying filename "leads.json", appends — in
addition to the optional text-derived entry — exactly one synthetic entry whose
content contains the literal "leads.json", and sets the completion flag. -/
theorem json_artifact_appends_synthetic_entry (s : ConsumerState) (parts : List ContentPart)
    (err : Option String) (p : ContentPart)
    (hone : parts.filter isJsonFile = [p])
    (hp : p.file = some { filename := some "leads.json", mime_type := some "application/json" }) :
    (handleEvent s (Event.named EventKind.final_response
        (Payload.parsed ⟨ContentField.list parts, err⟩))).messages
      = s.messages ++ textEntries ⟨ContentField.list parts, err⟩ MessageType.final
          ++ [{ content := "✅ Lead generation complete! Generated " ++ "leads.json" ++ ".",
                type := MessageType.final }] ∧
    (handleEvent s (Event.named EventKind.final_response
        (Payload.parsed ⟨ContentField.list parts, err⟩))).isComplete = true := by
  have hfind : (parts.filter fun q => q.file.isSome).find? isJsonFile = some p :=
    find?_filter_of_filter_eq_singleton isJsonFile (fun q => q.file.isSome)
      isJsonFile_implies_file_present parts p hone
  have hlen : (parts.filter fun q => q.file.isSome).length > 0 := by
    cases hfil : parts.filter fun q => q.file.isSome with
    | nil => rw [hfil] at hfind; simp at hfind
    | cons a t => simp
  have hlabel : artifactLabel p = "leads.json" := by
    simp [artifactLabel, hp]
  simp only [handleEvent, onFinalResponse]
  rw [if_pos hlen, hfind]
  constructor
  · dsimp only
    rw [hlabel, textStep_messages]
  · trivial

/-- Witness for C7 at a one-artifact content list. -/
theorem json_artifact_appends_synthetic_entry_witness :
    (handleEvent initialState (Event.named EventKind.final_response
        (Payload.parsed ⟨ContentField.list
          [⟨none, some ⟨some "leads.json", some "application/json"⟩⟩], none⟩))).messages
      = initialState.messages
          ++ textEntries ⟨ContentField.list
              [⟨none, some ⟨some "leads.json", some "application/json"⟩⟩], none⟩ MessageType.final
          ++ [{ content := "✅ Lead generation complete! Generated " ++ "leads.json" ++ ".",
                type := MessageType.final }] ∧
    (handleEvent initialState (Event.named EventKind.final_response
        (Payload.parsed ⟨ContentField.list
          [⟨none, some ⟨some "leads.json", some "application/json"⟩⟩], none⟩))).isComplete = true :=
  json_artifact_appends_synthetic_entry initialState
    [⟨none, some ⟨some "leads.json", some "application/json"⟩⟩] none
    ⟨none, some ⟨some "leads.json", some "application/json"⟩⟩ (by decide) rfl

/-- Claim C8: the transcript is append-only — every single step, and every whole
delivery sequence, only extends the message list at the end, so any earlier
transcript is a prefix of every later one. -/
theorem transcript_append_only :
    (∀ (s : ConsumerState) (e : Event), ∃ t, (handleEvent s e).messages = s.messages ++ t) ∧
    (∀ (s : ConsumerState) (es : List Event), ∃ t, (runEvents s es).messages = s.messages ++ t) := by
  refine ⟨handleEvent_messages_extend, fun s es => ?_⟩
  induction es generalizing s with
  | nil => exact ⟨[], by simp [runEvents]⟩
  | cons e rest ih =>
      obtain ⟨t1, ht1⟩ := handleEvent_messages_extend s e
      obtain ⟨t2, ht2⟩ := ih (handleEvent s e)
      exact ⟨t1 ++ t2, by rw [runEvents_cons, ht2, ht1, List.append_assoc]⟩

/-- Claim C9 (counterexample): a gateway error event carrying an empty error
message field is not surfaced verbatim — the `data.error || "An error occurred"`
fallback replaces it. -/
theorem empty_error_field_not_surfaced_verbatim :
    (handleEvent initialState (Event.named EventKind.error
        (Payload.parsed ⟨ContentField.missing, some ""⟩))).error = some "An error occurred" ∧
    (handleEvent initialState (Event.named EventKind.error
        (Payload.parsed ⟨ContentField.missing, some ""⟩))).error ≠ some "" := by
  decide

/-- Claim C9 (amended): a gateway error event whose parsed payload carries a
non-empty error message sets the error state to that message and appends one
error-kind entry containing it. -/
theorem error_event_surfaces_nonempty_message (s : ConsumerState) (c : ContentField)
    (m : String) (h : m ≠ "") :
    (handleEvent s (Event.named EventKind.error (Payload.parsed ⟨c, some m⟩))).error = some m ∧
    (handleEvent s (Event.named EventKind.error (Payload.parsed ⟨c, some m⟩))).messages
      = s.messages ++ [{ content := "❌ Error: " ++ m, type := MessageType.error }] := by
  simp only [handleEvent, onErrorEvent]
  rw [if_neg h]
  exact ⟨rfl, rfl⟩

/-- Witness for the amended C9 at message "boom". -/
theorem error_event_surfaces_nonempty_message_witness :
    (handleEvent initialState (Event.named EventKind.error
        (Payload.parsed ⟨ContentField.missing, some "boom"⟩))).error = some "boom" ∧
    (handleEvent initialState (Event.named EventKind.error
        (Payload.parsed ⟨ContentField.missing, some "boom"⟩))).messages
      = initialState.messages ++ [{ content := "❌ Error: " ++ "boom", type := MessageType.error }] :=
  error_event_surfaces_nonempty_message initialState ContentField.missing "boom" (by decide)

/-- Claim C10: a named error event delivered with an absent or empty data field
is a no-op — no error state, no transcript entry, stream untouched. -/
theorem absent_error_event_is_noop (s : ConsumerState) :
    handleEvent s (Event.named EventKind.error Payload.absent) = s := rfl

end LeadsPage
